import Mathlib

/-!
Verification of the `alena-messagebus-client` request/response layer.

The development shallowly embeds the pure logic of
`alena_messagebus_client/message.py`, `client/collector.py` and
`client/waiter.py`:

* Python dicts become association lists (`Dict`) with Python's
  insertion-order assignment semantics (`dinsert`);
* JSON-representable values become the inductive `JsonValue`;
* machine time in the collector's poll loop becomes exact rationals, one
  loop iteration per 0.1-second slice, with the concurrently mutated
  `handlers` map and the `all_collected` event abstracted as per-iteration
  oracles (`PollEnv`);
* Python attribute lookup, where a claim is about a missing attribute, is
  modelled by lists of assigned attribute names and an explicit
  `Except`-style `AttributeError`.
-/

namespace AlenaBus

/-! ## Python dicts as association lists -/

/-- Association-list model of a Python `dict` keyed by strings.  The list
order is the dict's insertion order. -/
abbrev Dict (α : Type) := List (String × α)

/-- Python `d.get(k)` / `d[k]`: the value stored under the first (unique)
occurrence of the key. -/
def dlookup {α : Type} (d : Dict α) (k : String) : Option α :=
  (d.find? (fun p => p.1 == k)).map Prod.snd

/-- Python `k in d`. -/
def dmem {α : Type} (d : Dict α) (k : String) : Bool :=
  d.any (fun p => p.1 == k)

/-- Python `d[k] = v`: replace in place when the key exists (keeping its
position), otherwise append at the end — the insertion-order semantics of
CPython dict assignment. -/
def dinsert {α : Type} (d : Dict α) (k : String) (v : α) : Dict α :=
  if dmem d k then d.map (fun p => if p.1 == k then (k, v) else p)
  else d ++ [(k, v)]

/-- Python `d.get(k, dflt)`. -/
def dgetD {α : Type} (d : Dict α) (k : String) (dflt : α) : α :=
  (dlookup d k).getD dflt

theorem dmem_eq_isSome {α : Type} (d : Dict α) (k : String) :
    dmem d k = (dlookup d k).isSome := by
  induction d with
  | nil => rfl
  | cons p t ih =>
      by_cases h : p.1 == k
      · simp [dmem, dlookup, List.find?, h]
      · simpa [dmem, dlookup, List.find?, h, List.any_cons] using ih

theorem dlookup_map_replace {α : Type} (d : Dict α) (k : String) (v : α)
    (h : dmem d k = true) :
    dlookup (d.map (fun p => if p.1 == k then (k, v) else p)) k = some v := by
  induction d with
  | nil => simp [dmem] at h
  | cons p t ih =>
      by_cases hp : p.1 == k
      · simp [dlookup, List.find?, hp]
      · have ht : dmem t k = true := by
          simpa [dmem, List.any_cons, hp] using h
        simpa [dlookup, List.find?, hp] using ih ht

theorem dlookup_map_replace_ne {α : Type} (d : Dict α) (k k2 : String) (v : α)
    (h : k2 ≠ k) :
    dlookup (d.map (fun p => if p.1 == k then (k, v) else p)) k2 = dlookup d k2 := by
  induction d with
  | nil => rfl
  | cons p t ih =>
      by_cases hp : p.1 == k
      · have hpk : p.1 = k := by simpa using hp
        have hk2 : (k == k2) = false := by
          simpa using (Ne.symm h)
        have hp2 : (p.1 == k2) = false := by
          simpa [hpk] using hk2
        simpa [dlookup, List.find?, hp, hk2, hp2] using ih
      · by_cases hq : p.1 == k2
        · simp [dlookup, List.find?, hp, hq]
        · simpa [dlookup, List.find?, hp, hq] using ih

theorem dlookup_append_single {α : Type} (d : Dict α) (k : String) (v : α)
    (h : dmem d k = false) :
    dlookup (d ++ [(k, v)]) k = some v := by
  induction d with
  | nil => simp [dlookup, List.find?]
  | cons p t ih =>
      have hp : (p.1 == k) = false := by
        by_cases hx : p.1 == k
        · simp [dmem, List.any_cons, hx] at h
        · simpa using hx
      have ht : dmem t k = false := by
        simpa [dmem, List.any_cons, hp] using h
      simpa [dlookup, List.find?, hp] using ih ht

theorem dlookup_append_single_ne {α : Type} (d : Dict α) (k k2 : String) (v : α)
    (h : k2 ≠ k) :
    dlookup (d ++ [(k, v)]) k2 = dlookup d k2 := by
  induction d with
  | nil =>
      have : (k == k2) = false := by simpa using (Ne.symm h)
      simp [dlookup, List.find?, this]
  | cons p t ih =>
      by_cases hp : p.1 == k2
      · simp [dlookup, List.find?, hp]
      · simpa [dlookup, List.find?, hp] using ih

theorem dlookup_dinsert_self {α : Type} (d : Dict α) (k : String) (v : α) :
    dlookup (dinsert d k v) k = some v := by
  unfold dinsert
  by_cases h : dmem d k
  · simpa [h] using dlookup_map_replace d k v h
  · have hf : dmem d k = false := by simpa using h
    simpa [hf] using dlookup_append_single d k v hf

theorem dlookup_dinsert_ne {α : Type} (d : Dict α) (k k2 : String) (v : α)
    (h : k2 ≠ k) :
    dlookup (dinsert d k v) k2 = dlookup d k2 := by
  unfold dinsert
  by_cases hm : dmem d k
  · simpa [hm] using dlookup_map_replace_ne d k k2 v h
  · have hf : dmem d k = false := by simpa using hm
    simpa [hf] using dlookup_append_single_ne d k k2 v h

theorem mem_dinsert {α : Type} {d : Dict α} {k : String} {v : α}
    {p : String × α} (h : p ∈ dinsert d k v) : p ∈ d ∨ p = (k, v) := by
  unfold dinsert at h
  by_cases hm : dmem d k
  · rw [if_pos hm] at h
    rcases List.mem_map.mp h with ⟨q, hq, hfq⟩
    by_cases hqk : q.1 == k
    · right
      simpa [hqk] using hfq.symm
    · left
      have : q = p := by simpa [hqk] using hfq
      exact this ▸ hq
  · rw [if_neg hm] at h
    rcases List.mem_append.mp h with h1 | h1
    · exact Or.inl h1
    · right
      simpa using h1

/-! ## JSON values and the Message envelope (`message.py`) -/

/-- JSON-representable values, the data that `json.dumps` accepts and
`json.loads` produces. -/
inductive JsonValue : Type where
  | null : JsonValue
  | bool : Bool → JsonValue
  | num : ℚ → JsonValue
  | str : String → JsonValue
  | arr : List JsonValue → JsonValue
  | obj : List (String × JsonValue) → JsonValue

/-- The `Message` envelope of `message.py`, restricted to the valid
envelopes of the specification: `message_type` is a string and
`payload` / `context` are JSON-representable mappings. -/
structure Message : Type where
  message_type : String
  payload : Dict JsonValue
  context : Dict JsonValue

/-- Body of `Message.serialize`: the JSON tree passed to `json.dumps`.
`json.dumps` followed by `json.loads` is the identity on such trees, so
serialization and deserialization are composed at the tree level. -/
def Message.serialize (m : Message) : JsonValue :=
  .obj [("type", .str m.message_type),
        ("payload", .obj m.payload),
        ("context", .obj m.context)]

/-- Python `obj.get("type") or ""`: a missing key or a falsy value (the
empty string) is replaced by `""`.  On string values this is the identity
composed with the truthiness test, exactly as in the source. -/
def pyGetOrStr (v : Option JsonValue) : String :=
  match v with
  | some (.str s) => if s = "" then "" else s
  | _ => ""

/-- Python `obj.get("payload") or \x7b\x7d`: a missing key or a falsy value
(the empty dict) is replaced by the empty dict. -/
def pyGetOrDict (v : Option JsonValue) : Dict JsonValue :=
  match v with
  | some (.obj d) => d
  | _ => []

/-- Body of `Message.deserialize` applied to the tree `json.loads`
produced.  A non-object tree makes the source's `obj.get` attribute
lookups fail, hence `none`. -/
def Message.deserialize (v : JsonValue) : Option Message :=
  match v with
  | .obj fields =>
      some { message_type := pyGetOrStr (dlookup fields "type"),
             payload := pyGetOrDict (dlookup fields "payload"),
             context := pyGetOrDict (dlookup fields "context") }
  | _ => none

theorem pyGetOrStr_str (s : String) : pyGetOrStr (some (.str s)) = s := by
  by_cases h : s = ""
  · simp [pyGetOrStr, h]
  · simp [pyGetOrStr, h]

/-- C6: for every valid envelope, `deserialize (serialize m)` restores all
three fields of `m`. -/
theorem serialize_deserialize_roundtrip (m : Message) :
    Message.deserialize (Message.serialize m) = some m := by
  cases m with
  | mk t p c =>
      show Message.deserialize (.obj [("type", .str t), ("payload", .obj p),
        ("context", .obj c)]) = _
      have h1 : dlookup [("type", JsonValue.str t), ("payload", JsonValue.obj p),
          ("context", JsonValue.obj c)] "type" = some (.str t) := rfl
      have h2 : dlookup [("type", JsonValue.str t), ("payload", JsonValue.obj p),
          ("context", JsonValue.obj c)] "payload" = some (.obj p) := rfl
      have h3 : dlookup [("type", JsonValue.str t), ("payload", JsonValue.obj p),
          ("context", JsonValue.obj c)] "context" = some (.obj c) := rfl
      simp [Message.deserialize, h1, h2, h3, pyGetOrStr_str, pyGetOrDict]

/-- Python `base.update(overrides)` done key by key, as in the `for key in
context` loop of `Message.reply`. -/
def pyUpdate (base overrides : Dict JsonValue) : Dict JsonValue :=
  overrides.foldl (fun acc kv => dinsert acc kv.1 kv.2) base

/-- Body of `Message.reply`.  `deepcopy` is the identity in this pure
model; `payload = deepcopy(payload) or \x7b\x7d` and `context = context or
\x7b\x7d` are handled by the caller passing the (possibly empty) dicts
explicitly.  The guarded `new_context["destination"]` / `["source"]`
reads use `dgetD` with a dummy default that is unreachable under the
surrounding `in`-checks, mirroring Python's guarded indexing. -/
def Message.reply (m : Message) (message_type : String)
    (payload : Dict JsonValue) (context : Dict JsonValue) : Message :=
  let nc0 := pyUpdate m.context context
  let nc1 := if dmem payload "destination" then
      dinsert nc0 "destination" (dgetD payload "destination" .null)
    else nc0
  let nc2 := if dmem nc1 "source" && dmem nc1 "destination" then
      let s := dgetD nc1 "destination" .null
      let c1 := dinsert nc1 "destination" (dgetD nc1 "source" .null)
      dinsert c1 "source" s
    else nc1
  { message_type := message_type, payload := payload, context := nc2 }

theorem source_ne_destination : ("source" : String) ≠ "destination" := by
  decide

/-- C7: `reply` swaps `source` and `destination`; with no overrides the
reply's context carries the original destination as `source` and the
original source as `destination`, and a `destination` key in the reply's
payload is written into the context's `destination` field before the swap
is applied, so it ends up as the reply's `source`. -/
theorem reply_swaps_source_destination (m : Message) (t : String)
    (p po : Dict JsonValue) (a b v : JsonValue)
    (hsrc : dlookup m.context "source" = some a)
    (hdst : dlookup m.context "destination" = some b)
    (hp : dmem p "destination" = false)
    (hpv : dlookup po "destination" = some v) :
    (dlookup (Message.reply m t p []).context "source" = some b ∧
     dlookup (Message.reply m t p []).context "destination" = some a) ∧
    (dlookup (Message.reply m t po []).context "source" = some v ∧
     dlookup (Message.reply m t po []).context "destination" = some a) := by
  have hne : ("destination" : String) ≠ "source" := by decide
  constructor
  · -- no destination key in the payload: plain swap of the two fields
    have hmemS : dmem m.context "source" = true := by
      rw [dmem_eq_isSome, hsrc]
      rfl
    have hmemD : dmem m.context "destination" = true := by
      rw [dmem_eq_isSome, hdst]
      rfl
    have hupd : pyUpdate m.context [] = m.context := rfl
    have hgS : dgetD m.context "source" JsonValue.null = a := by
      simp [dgetD, hsrc]
    have hgD : dgetD m.context "destination" JsonValue.null = b := by
      simp [dgetD, hdst]
    constructor
    · simp only [Message.reply, hupd, hp, if_false, hmemS, hmemD,
        Bool.and_self, if_true, hgS, hgD, Bool.false_eq_true]
      rw [dlookup_dinsert_self]
    · simp only [Message.reply, hupd, hp, if_false, hmemS, hmemD,
        Bool.and_self, if_true, hgS, hgD, Bool.false_eq_true]
      rw [dlookup_dinsert_ne _ "source" "destination" _ hne,
        dlookup_dinsert_self]
  · -- destination in the payload: written into the context, then swapped
    have hpm : dmem po "destination" = true := by
      rw [dmem_eq_isSome, hpv]
      rfl
    have hupd : pyUpdate m.context [] = m.context := rfl
    have hgpv : dgetD po "destination" JsonValue.null = v := by
      simp [dgetD, hpv]
    have hstep : dlookup (dinsert m.context "destination" v) "source"
        = some a := by
      rw [dlookup_dinsert_ne _ "destination" "source" _ source_ne_destination]
      exact hsrc
    have hmemS : dmem (dinsert m.context "destination" v) "source" = true := by
      rw [dmem_eq_isSome, hstep]
      rfl
    have hmemD : dmem (dinsert m.context "destination" v) "destination"
        = true := by
      rw [dmem_eq_isSome, dlookup_dinsert_self]
      rfl
    have hgS : dgetD (dinsert m.context "destination" v) "source"
        JsonValue.null = a := by
      simp [dgetD, hstep]
    have hgD : dgetD (dinsert m.context "destination" v) "destination"
        JsonValue.null = v := by
      simp [dgetD, dlookup_dinsert_self]
    constructor
    · simp only [Message.reply, hupd, hpm, if_true, hgpv, hmemS, hmemD,
        Bool.and_self, hgS, hgD]
      rw [dlookup_dinsert_self]
    · simp only [Message.reply, hupd, hpm, if_true, hgpv, hmemS, hmemD,
        Bool.and_self, hgS, hgD]
      rw [dlookup_dinsert_ne _ "source" "destination" _ hne,
        dlookup_dinsert_self]

/-- Witness for C7 at a concrete message with context
`source = "A"`, `destination = "B"` and payload destination `"C"`. -/
theorem reply_swaps_source_destination_witness :
    (dlookup [("source", JsonValue.str "A"), ("destination", JsonValue.str "B")]
        "source" = some (.str "A")) ∧
    (dlookup (Message.reply ⟨"t", [], [("source", JsonValue.str "A"),
        ("destination", JsonValue.str "B")]⟩ "t.response" [] []).context
        "source" = some (.str "B")) ∧
    (dlookup (Message.reply ⟨"t", [], [("source", JsonValue.str "A"),
        ("destination", JsonValue.str "B")]⟩ "t.response"
        [("destination", JsonValue.str "C")] []).context
        "source" = some (.str "C")) := by
  refine ⟨rfl, ?_, ?_⟩
  · exact ((reply_swaps_source_destination
      ⟨"t", [], [("source", JsonValue.str "A"), ("destination", JsonValue.str "B")]⟩
      "t.response" [] [("destination", JsonValue.str "C")]
      (.str "A") (.str "B") (.str "C") rfl rfl rfl rfl).1).1
  · exact ((reply_swaps_source_destination
      ⟨"t", [], [("source", JsonValue.str "A"), ("destination", JsonValue.str "B")]⟩
      "t.response" [] [("destination", JsonValue.str "C")]
      (.str "A") (.str "B") (.str "C") rfl rfl rfl rfl).2).1

/-! ## Collector state and delivery callbacks (`client/collector.py`)

The callbacks read only `msg.data["query"]`, `msg.data["handler"]` and
`msg.data["timeout"]` from a delivered message, so the embedding keeps
exactly those fields.  Timeouts are exact rationals.  The `queue` used by
the (never-exercised) iterator protocol is omitted; the `all_collected`
`Event` becomes a boolean that `set()` turns on. -/

/-- Data of a `T.handling` acknowledgment as read by `_register_handler`. -/
structure HandlingMsg : Type where
  query : String
  handler : String
  timeout : ℚ
deriving DecidableEq

/-- Data of a `T.response` message as read by `_receive_response`. -/
structure RespMsg : Type where
  query : String
  handler : String
deriving DecidableEq

/-- Mutable state of a `MessageCollector` shared between the delivery
callbacks and the polling loop. -/
structure CollectorState : Type where
  collect_id : String
  handlers : Dict ℚ
  responses : Dict RespMsg
  all_collected : Bool
deriving DecidableEq

/-- State of a collector right after `__init__`. -/
def initState (cid : String) : CollectorState :=
  { collect_id := cid, handlers := [], responses := [], all_collected := false }

/-- Body of `MessageCollector._register_handler` (the code under the
lock): a handling acknowledgment registers its handler with its declared
timeout when the `query` matches `collect_id` and the handler is new. -/
def registerHandler (st : CollectorState) (msg : HandlingMsg) : CollectorState :=
  if msg.query == st.collect_id && !(dmem st.handlers msg.handler) then
    let previous_timeout := dgetD st.handlers msg.handler 0
    { st with handlers := dinsert st.handlers msg.handler (previous_timeout + msg.timeout) }
  else st

/-- Body of `MessageCollector._receive_response` (the code under the
lock): a matching response is stored, the handler's remaining timeout is
reset to zero, and the all-collected event is set when every known handler
has answered or the early-return predicate accepts the response. -/
def receiveResponse (direct : RespMsg → Bool) (st : CollectorState)
    (msg : RespMsg) : CollectorState :=
  if msg.query == st.collect_id then
    let responses := dinsert st.responses msg.handler msg
    let handlers := dinsert st.handlers msg.handler 0
    let allc := responses.length == handlers.length
    let ev := if allc || direct msg then true else st.all_collected
    { st with responses := responses, handlers := handlers, all_collected := ev }
  else st

/-- One message delivered by the dispatcher to the collector's two
registered callbacks. -/
inductive BusEvent : Type where
  | handling : HandlingMsg → BusEvent
  | response : RespMsg → BusEvent
deriving DecidableEq

/-- The `query` field carried by a delivered message. -/
def eventQuery : BusEvent → String
  | .handling m => m.query
  | .response m => m.query

/-- Dispatch of one delivered message to the matching callback. -/
def deliverEvent (direct : RespMsg → Bool) (st : CollectorState) :
    BusEvent → CollectorState
  | .handling m => registerHandler st m
  | .response m => receiveResponse direct st m

/-- A whole sequence of deliveries, in order. -/
def runDeliveries (direct : RespMsg → Bool) (st : CollectorState)
    (evs : List BusEvent) : CollectorState :=
  evs.foldl (deliverEvent direct) st

/-- The list comprehension `[self.responses[key] for key in self.responses]`
returned by the waiting phase: the stored responses in insertion order. -/
def collectResult (st : CollectorState) : List RespMsg :=
  st.responses.map Prod.snd

theorem deliverEvent_collect_id (direct : RespMsg → Bool)
    (st : CollectorState) (e : BusEvent) :
    (deliverEvent direct st e).collect_id = st.collect_id := by
  cases e with
  | handling m =>
      simp only [deliverEvent, registerHandler]
      split <;> rfl
  | response m =>
      simp only [deliverEvent, receiveResponse]
      split <;> rfl

theorem deliverEvent_foreign (direct : RespMsg → Bool) (st : CollectorState)
    (e : BusEvent) (h : eventQuery e ≠ st.collect_id) :
    deliverEvent direct st e = st := by
  cases e with
  | handling m =>
      have hb : (m.query == st.collect_id) = false :=
        beq_eq_false_iff_ne.mpr h
      simp [deliverEvent, registerHandler, hb]
  | response m =>
      have hb : (m.query == st.collect_id) = false :=
        beq_eq_false_iff_ne.mpr h
      simp [deliverEvent, receiveResponse, hb]

theorem deliverEvent_responses (direct : RespMsg → Bool) (st : CollectorState)
    (e : BusEvent) (h : ∀ r ∈ collectResult st, r.query = st.collect_id) :
    ∀ r ∈ collectResult (deliverEvent direct st e), r.query = st.collect_id := by
  cases e with
  | handling m =>
      intro r hr
      apply h
      simpa [deliverEvent, registerHandler, collectResult] using
        (by
          revert hr
          simp only [deliverEvent, registerHandler]
          split <;> (intro hr; simpa [collectResult] using hr))
  | response m =>
      intro r hr
      by_cases hq : m.query == st.collect_id
      · have hqe : m.query = st.collect_id := by simpa using hq
        simp only [deliverEvent, receiveResponse, hq, if_true] at hr
        simp only [collectResult, List.mem_map] at hr
        rcases hr with ⟨p, hp, hpr⟩
        rcases mem_dinsert hp with hp1 | hp1
        · exact h r (List.mem_map.mpr ⟨p, hp1, hpr⟩)
        · rw [← hpr, hp1]
          exact hqe
      · have hb : (m.query == st.collect_id) = false := by simpa using hq
        simp only [deliverEvent, receiveResponse, hb, Bool.false_eq_true,
          if_false] at hr
        exact h r hr

theorem runDeliveries_responses (direct : RespMsg → Bool) :
    ∀ (evs : List BusEvent) (st : CollectorState),
      (∀ r ∈ collectResult st, r.query = st.collect_id) →
      ∀ r ∈ collectResult (runDeliveries direct st evs),
        r.query = st.collect_id := by
  intro evs
  induction evs with
  | nil =>
      intro st h r hr
      exact h r hr
  | cons e rest ih =>
      intro st h r hr
      have hstep := deliverEvent_responses direct st e h
      have hcid := deliverEvent_collect_id direct st e
      have := ih (deliverEvent direct st e) (by
        intro r2 hr2
        rw [hcid]
        exact hstep r2 hr2) r (by
          simpa [runDeliveries, List.foldl_cons] using hr)
      rw [← hcid]
      exact this

/-- C1: a delivered acknowledgment or response whose `query` differs from
the collector's `collect_id` changes neither `handlers` nor `responses`
(the whole state is untouched), and consequently, starting from a fresh
collector, every response in the sequence returned by `collect()` carries
this collector's `collect_id`: foreign messages never appear in it. -/
theorem collector_filters_foreign_query (direct : RespMsg → Bool)
    (cid : String) (evs : List BusEvent) :
    (∀ (st : CollectorState) (e : BusEvent),
      eventQuery e ≠ st.collect_id → deliverEvent direct st e = st) ∧
    (∀ r ∈ collectResult (runDeliveries direct (initState cid) evs),
      r.query = cid) := by
  constructor
  · intro st e h
    exact deliverEvent_foreign direct st e h
  · intro r hr
    exact runDeliveries_responses direct evs (initState cid)
      (by intro r2 hr2; simp [collectResult, initState] at hr2) r hr

/-- Witness for C1: a foreign acknowledgment leaves the fresh collector
state untouched, and a matching response in the returned sequence carries
the collector's id. -/
theorem collector_filters_foreign_query_witness :
    deliverEvent (fun _ => false) (initState "c")
      (.handling ⟨"x", "h1", 5⟩) = initState "c" ∧
    (⟨"c", "h1"⟩ : RespMsg).query = "c" := by
  constructor
  · exact (collector_filters_foreign_query (fun _ => false) "c" []).1
      (initState "c") (.handling ⟨"x", "h1", 5⟩) (by decide)
  · exact (collector_filters_foreign_query (fun _ => false) "c"
      [.response ⟨"c", "h1"⟩]).2 ⟨"c", "h1"⟩ (by decide)

/-! ## The waiting poll loop (`_wait_for_registered_handlers`)

The loop body is driven by two quantities read afresh on every check:
`max(self.handlers.values())`, which the concurrent delivery callbacks may
change between iterations, and the `all_collected` event's 0.1-second
wait.  Both are abstracted as oracles indexed by the iteration number.
`time_waited` starts at `min_timeout` and grows by exactly 0.1 per
iteration; time is exact rational arithmetic. -/

/-- Per-iteration oracle for the poll loop: `handlersMax i` is the value
of `max(self.handlers.values())` read at the i-th condition check, and
`signal i` tells whether `all_collected.wait(timeout=0.1)` returns true
during the i-th iteration. -/
structure PollEnv : Type where
  handlersMax : ℕ → ℚ
  signal : ℕ → Bool

/-- Number of iterations executed by the `while` loop of
`_wait_for_registered_handlers`, given fuel, the current iteration index
and the current `time_waited`.  The loop runs while
`remaining_timeout > 0.0 and time_waited < self.max_timeout`; a true
`all_collected.wait` breaks out after that iteration.  The fuel argument
only makes the recursion structural: any fuel at least the C2 bound gives
the same count. -/
def pollSteps (maxT : ℚ) (env : PollEnv) : ℕ → ℕ → ℚ → ℕ
  | 0, _, _ => 0
  | fuel + 1, i, tw =>
    if 0 < env.handlersMax i - tw ∧ tw < maxT then
      if env.signal i then 1
      else 1 + pollSteps maxT env fuel (i + 1) (tw + 1 / 10)
    else 0

/-- Waiting loop as the specification words it (for comparison with the
source's `pollSteps`): the spec says the loop keeps waiting while the time
waited is below `max_timeout` OR below the maximum remaining per-handler
timeout, i.e. its outer bound is the larger of the two; so its continue
condition is the disjunction of the two bounds. -/
def specWaitLoopSteps (maxT : ℚ) (env : PollEnv) : ℕ → ℕ → ℚ → ℕ
  | 0, _, _ => 0
  | fuel + 1, i, tw =>
    if 0 < env.handlersMax i - tw ∨ tw < maxT then
      if env.signal i then 1
      else 1 + specWaitLoopSteps maxT env fuel (i + 1) (tw + 1 / 10)
    else 0

theorem ceil_ten_pos {M tw : ℚ} (h : tw < M) : 1 ≤ ⌈(M - tw) * 10⌉ := by
  have hpos : 0 < (M - tw) * 10 := by
    have h1 : 0 < M - tw := by linarith
    have h2 : (0 : ℚ) < 10 := by norm_num
    exact mul_pos h1 h2
  exact Int.ceil_pos.mpr hpos

theorem ceil_ten_step (M tw : ℚ) :
    ⌈(M - (tw + 1 / 10)) * 10⌉ = ⌈(M - tw) * 10⌉ - 1 := by
  have h : (M - (tw + 1 / 10)) * 10 = (M - tw) * 10 - 1 := by ring
  rw [h]
  exact_mod_cast Int.ceil_sub_one ((M - tw) * 10)

theorem ceil_ten_nonpos {M tw : ℚ} (h : (⌈(M - tw) * 10⌉).toNat = 0) :
    ¬ tw < M := by
  intro hlt
  have := ceil_ten_pos hlt
  omega

/-- Core bound: if the loop's continue condition forces `time_waited`
below some bound `M`, the iteration count is at most
`ceil((M - time_waited) * 10)`, whatever the fuel and the oracle. -/
theorem pollSteps_le_ceil (maxT : ℚ) (env : PollEnv) (M : ℚ)
    (hM : ∀ (i : ℕ) (tw : ℚ),
      (0 < env.handlersMax i - tw ∧ tw < maxT) → tw < M) :
    ∀ (fuel i : ℕ) (tw : ℚ),
      pollSteps maxT env fuel i tw ≤ (⌈(M - tw) * 10⌉).toNat := by
  intro fuel
  induction fuel with
  | zero =>
      intro i tw
      simp [pollSteps]
  | succ n ih =>
      intro i tw
      simp only [pollSteps]
      split
      case isTrue h =>
        have htw : tw < M := hM i tw h
        have h1 : 1 ≤ ⌈(M - tw) * 10⌉ := ceil_ten_pos htw
        split
        · omega
        · have hrec := ih (i + 1) (tw + 1 / 10)
          have hstep := ceil_ten_step M tw
          rw [hstep] at hrec
          omega
      case isFalse h => simp

/-- The fuel is artificial: any two fuels at least the ceiling bound give
the same iteration count, i.e. the loop genuinely exits within the bound. -/
theorem pollSteps_fuel_indep (maxT : ℚ) (env : PollEnv) :
    ∀ (f1 f2 i : ℕ) (tw : ℚ),
      (⌈(maxT - tw) * 10⌉).toNat ≤ f1 → (⌈(maxT - tw) * 10⌉).toNat ≤ f2 →
      pollSteps maxT env f1 i tw = pollSteps maxT env f2 i tw := by
  intro f1
  induction f1 with
  | zero =>
      intro f2 i tw h1 h2
      have hz : (⌈(maxT - tw) * 10⌉).toNat = 0 := by omega
      have hnlt := ceil_ten_nonpos hz
      cases f2 with
      | zero => rfl
      | succ m =>
          simp only [pollSteps]
          rw [if_neg (by
            intro hc
            exact hnlt hc.2)]
  | succ n ih =>
      intro f2 i tw h1 h2
      cases f2 with
      | zero =>
          have hz : (⌈(maxT - tw) * 10⌉).toNat = 0 := by omega
          have hnlt := ceil_ten_nonpos hz
          simp only [pollSteps]
          rw [if_neg (by
            intro hc
            exact hnlt hc.2)]
      | succ m =>
          simp only [pollSteps]
          by_cases hc : 0 < env.handlersMax i - tw ∧ tw < maxT
          · rw [if_pos hc, if_pos hc]
            by_cases hs : env.signal i
            · rw [if_pos hs, if_pos hs]
            · rw [if_neg hs, if_neg hs]
              have hone : 1 ≤ ⌈(maxT - tw) * 10⌉ := ceil_ten_pos hc.2
              have hstep := ceil_ten_step maxT tw
              have hb1 : (⌈(maxT - (tw + 1 / 10)) * 10⌉).toNat ≤ n := by
                rw [hstep]; omega
              have hb2 : (⌈(maxT - (tw + 1 / 10)) * 10⌉).toNat ≤ m := by
                rw [hstep]; omega
              rw [ih m (i + 1) (tw + 1 / 10) hb1 hb2]
          · rw [if_neg hc, if_neg hc]

/-- C2: whatever handlers register and whatever timeouts they declare
(the oracle `env` is arbitrary), the poll loop executes at most
`ceil((max_timeout - min_timeout) / 0.1)` iterations, and any fuel at
least that bound yields the same count — the loop genuinely returns
within the bound. -/
theorem collector_poll_loop_iteration_bound (minT maxT : ℚ) (env : PollEnv) :
    (∀ fuel, pollSteps maxT env fuel 0 minT ≤
      (⌈(maxT - minT) / (1 / 10)⌉).toNat) ∧
    (∀ f1 f2, (⌈(maxT - minT) / (1 / 10)⌉).toNat ≤ f1 →
      (⌈(maxT - minT) / (1 / 10)⌉).toNat ≤ f2 →
      pollSteps maxT env f1 0 minT = pollSteps maxT env f2 0 minT) := by
  have hdiv : (maxT - minT) / (1 / 10 : ℚ) = (maxT - minT) * 10 := by
    rw [one_div, div_eq_mul_inv, inv_inv]
  rw [hdiv]
  constructor
  · intro fuel
    exact pollSteps_le_ceil maxT env maxT (fun i tw hc => hc.2) fuel 0 minT
  · intro f1 f2 h1 h2
    exact pollSteps_fuel_indep maxT env f1 f2 0 minT h1 h2

/-- Witness for C2 with `min_timeout = 0`, `max_timeout = 1`, a single
handler declaring a one-second timeout and a never-firing signal: the
bound is 10 iterations. -/
theorem collector_poll_loop_iteration_bound_witness :
    pollSteps 1 ⟨fun _ => 1, fun _ => false⟩ 10 0 0 ≤
      (⌈((1 : ℚ) - 0) / (1 / 10)⌉).toNat ∧
    pollSteps 1 ⟨fun _ => 1, fun _ => false⟩ 10 0 0 =
      pollSteps 1 ⟨fun _ => 1, fun _ => false⟩ 11 0 0 := by
  have h10 : ((1 : ℚ) - 0) / (1 / 10) = 10 := by norm_num
  have hb : (⌈((1 : ℚ) - 0) / (1 / 10)⌉).toNat = 10 := by
    rw [h10]
    simp
  constructor
  · exact (collector_poll_loop_iteration_bound 0 1
      ⟨fun _ => 1, fun _ => false⟩).1 10
  · exact (collector_poll_loop_iteration_bound 0 1
      ⟨fun _ => 1, fun _ => false⟩).2 10 11 hb.le (hb.le.trans (by omega))

/-- Counterexample to C3 as stated: with `min_timeout = 0`,
`max_timeout = 1`, one handler whose declared timeout is 0.1 and no
all-collected signal, the source's loop stops after a single iteration —
as soon as the handler's timeout is exhausted and long before
`max_timeout` — while a loop bounded by the larger of the two bounds, as
the spec words it, would run 10 iterations. -/
theorem collector_loop_bound_counterexample :
    pollSteps 1 ⟨fun _ => 1 / 10, fun _ => false⟩ 20 0 0 = 1 ∧
    specWaitLoopSteps 1 ⟨fun _ => 1 / 10, fun _ => false⟩ 20 0 0 = 10 ∧
    (1 : ℕ) ≠ 10 := by
  refine ⟨?_, ?_, by decide⟩
  · norm_num [pollSteps]
  · norm_num [specWaitLoopSteps]

/-- C3 amended: the loop's continue condition is the conjunction of the
two bounds, so the collector's wait is bounded by the smaller of
`max_timeout` and the maximum declared handler timeout: it stops as soon
as either all known handler timeouts have elapsed or `max_timeout` is
reached, it continues (absent the signal) only while both bounds are
unexhausted, and with a constant handler-timeout reading `H` the
iteration count is at most `ceil((min max_timeout H - time_waited) * 10)`. -/
theorem collector_loop_bound_is_min (maxT : ℚ) (env : PollEnv)
    (fuel i : ℕ) (tw : ℚ) :
    (env.handlersMax i - tw ≤ 0 ∨ maxT ≤ tw →
      pollSteps maxT env (fuel + 1) i tw = 0) ∧
    (0 < env.handlersMax i - tw → tw < maxT → env.signal i = false →
      pollSteps maxT env (fuel + 1) i tw =
        1 + pollSteps maxT env fuel (i + 1) (tw + 1 / 10)) ∧
    (∀ H : ℚ, (∀ j, env.handlersMax j = H) →
      ∀ (f j : ℕ) (t : ℚ), pollSteps maxT env f j t ≤
        (⌈(min maxT H - t) * 10⌉).toNat) := by
  refine ⟨?_, ?_, ?_⟩
  · intro h
    simp only [pollSteps]
    rw [if_neg]
    intro hc
    rcases h with h | h
    · linarith [hc.1]
    · linarith [hc.2]
  · intro h1 h2 hs
    simp only [pollSteps]
    rw [if_pos ⟨h1, h2⟩, if_neg (by simp [hs])]
  · intro H hH f j t
    apply pollSteps_le_ceil
    intro i2 tw2 hc
    rw [hH i2] at hc
    have hx : tw2 < H := by linarith [hc.1]
    exact lt_min hc.2 hx

/-- Witness for C3's amended statement at `max_timeout = 1` and a constant
handler-timeout reading of 0.1. -/
theorem collector_loop_bound_is_min_witness :
    pollSteps 1 ⟨fun _ => 1 / 10, fun _ => false⟩ 6 0 (1 / 10) = 0 ∧
    pollSteps 1 ⟨fun _ => 1 / 10, fun _ => false⟩ 6 0 0 =
      1 + pollSteps 1 ⟨fun _ => 1 / 10, fun _ => false⟩ 5 1 (0 + 1 / 10) ∧
    pollSteps 1 ⟨fun _ => 1 / 10, fun _ => false⟩ 3 0 0 ≤
      (⌈(min (1 : ℚ) (1 / 10) - 0) * 10⌉).toNat := by
  refine ⟨?_, ?_, ?_⟩
  · exact (collector_loop_bound_is_min 1 ⟨fun _ => 1 / 10, fun _ => false⟩
      5 0 (1 / 10)).1 (Or.inl (by norm_num))
  · exact ((collector_loop_bound_is_min 1 ⟨fun _ => 1 / 10, fun _ => false⟩
      5 0 0).2).1 (by norm_num) (by norm_num) rfl
  · exact ((collector_loop_bound_is_min 1 ⟨fun _ => 1 / 10, fun _ => false⟩
      5 0 0).2).2 (1 / 10) (fun j => rfl) 3 0 0

/-! ## The collect() pipeline (`collect`, `start`, `shutdown`)

`collect()` first runs `start()` (register listeners, emit, sleep
`min_timeout`); messages delivered during that grace period give the state
`st`.  It then returns `[]` when no handler registered, otherwise runs the
poll loop and reads the responses present when the loop exits (they may
keep arriving concurrently, hence the separate exit-state `stF`), and
finally runs `shutdown()`.  The pair returned here is the result list
together with the number of poll-loop iterations performed. -/

/-- Branching of `collect()` after the grace period: the exact
`if len(self.handlers) == 0` of the source, returning the literal empty
list with zero poll iterations, else the poll loop's outcome. -/
def collectAfterGrace (minT maxT : ℚ) (env : PollEnv) (fuel : ℕ)
    (st stF : CollectorState) : List RespMsg × ℕ :=
  if st.handlers.length = 0 then ([], 0)
  else (collectResult stF, pollSteps maxT env fuel 0 minT)

/-- C4: when no acknowledgment was accepted during the grace period the
`handlers` mapping is empty and `collect()` returns the empty sequence
with zero poll-loop iterations — it never starts waiting toward
`max_timeout`. -/
theorem collect_no_handlers_returns_empty (minT maxT : ℚ) (env : PollEnv)
    (fuel : ℕ) (st stF : CollectorState) (h : st.handlers = []) :
    collectAfterGrace minT maxT env fuel st stF = ([], 0) := by
  simp [collectAfterGrace, h]

/-- Witness for C4 on a fresh collector state. -/
theorem collect_no_handlers_returns_empty_witness :
    (initState "c").handlers = [] ∧
    collectAfterGrace 0 3 ⟨fun _ => 1, fun _ => false⟩ 30
      (initState "c") (initState "c") = ([], 0) :=
  ⟨rfl, collect_no_handlers_returns_empty 0 3 ⟨fun _ => 1, fun _ => false⟩ 30
    (initState "c") (initState "c") rfl⟩

/-! ## Exceptions and listener teardown in `collect()` -/

/-- Python exceptions that the modelled paths can raise. -/
inductive PyErr : Type where
  | notConnected : PyErr
  | attributeError : String → PyErr
  | valueError : PyErr
  | keyError : PyErr
deriving DecidableEq

/-- Boolean test for a raised outcome. -/
def isRaised {α : Type} : Except PyErr α → Bool
  | .error _ => true
  | .ok _ => false

/-- Full control flow of `collect()`, tracking the dispatcher's registered
listener types.  `_setup_collection_handlers` registers listeners for
`T.handling` and `T.response`; `emit` may raise (the bus facade raises
when no connection is established within its bounded wait); on the normal
paths `shutdown()` runs `_teardown_collection_handlers`, which removes
both listeners.  The source wraps none of this in `try/finally`, so a
raise after setup propagates with the listeners still registered. -/
def collectRun (bt : String) (emitOk : Bool) (ls : List String)
    (minT maxT : ℚ) (env : PollEnv) (fuel : ℕ) (st stF : CollectorState) :
    Except PyErr (List RespMsg × ℕ) × List String :=
  let ls1 := ls ++ [bt ++ ".handling", bt ++ ".response"]
  if emitOk then
    let r := collectAfterGrace minT maxT env fuel st stF
    let ls2 := (ls1.erase (bt ++ ".handling")).erase (bt ++ ".response")
    (.ok r, ls2)
  else (.error .notConnected, ls1)

/-- Counterexample to C5 as stated: when `emit` raises after the two
listeners were registered, `collect()` propagates the exception and both
listeners are still registered on exit — the exception path performs no
teardown. -/
theorem collect_teardown_counterexample :
    isRaised (collectRun "q" false [] 0 1 ⟨fun _ => 1, fun _ => false⟩ 0
      (initState "c") (initState "c")).1 = true ∧
    (collectRun "q" false [] 0 1 ⟨fun _ => 1, fun _ => false⟩ 0
      (initState "c") (initState "c")).2 = ["q.handling", "q.response"] ∧
    (["q.handling", "q.response"] : List String) ≠ [] := by
  refine ⟨rfl, rfl, by decide⟩

theorem handling_ne_response (bt : String) :
    bt ++ ".handling" ≠ bt ++ ".response" := by
  intro h
  have hd := congrArg String.data h
  rw [String.data_append, String.data_append] at hd
  have := List.append_cancel_left hd
  have hne : (".handling" : String).data ≠ (".response" : String).data := by
    decide
  exact hne this

/-- C5 amended: on the two normal exit paths (all-collected signal or
timeout, i.e. whenever emit and the waiting phase return) both listeners
are deregistered before `collect()` returns, restoring the dispatcher's
listener set; but when an exception is raised after listener setup
(e.g. `NotConnected` from `emit`), `collect()` propagates it without
deregistering either listener. -/
theorem collect_teardown_on_normal_exit (bt : String) (ls : List String)
    (minT maxT : ℚ) (env : PollEnv) (fuel : ℕ) (st stF : CollectorState)
    (h1 : bt ++ ".handling" ∉ ls) (h2 : bt ++ ".response" ∉ ls) :
    (collectRun bt true ls minT maxT env fuel st stF).2 = ls ∧
    (collectRun bt false ls minT maxT env fuel st stF).2 =
      ls ++ [bt ++ ".handling", bt ++ ".response"] := by
  constructor
  · show ((ls ++ [bt ++ ".handling", bt ++ ".response"]).erase
      (bt ++ ".handling")).erase (bt ++ ".response") = ls
    rw [List.erase_append_right _ h1, List.erase_cons_head,
      List.erase_append_right _ h2, List.erase_cons_head, List.append_nil]
  · rfl

/-- Witness for C5's amended statement with no pre-existing listeners. -/
theorem collect_teardown_on_normal_exit_witness :
    ("q.handling" : String) ∉ ([] : List String) ∧
    (collectRun "q" true [] 0 1 ⟨fun _ => 1, fun _ => false⟩ 0
      (initState "c") (initState "c")).2 = [] :=
  ⟨by decide,
   (collect_teardown_on_normal_exit "q" [] 0 1 ⟨fun _ => 1, fun _ => false⟩ 0
     (initState "c") (initState "c") (by decide) (by decide)).1⟩

/-! ## The single-message waiter (`client/waiter.py`)

`MessageWaiter.__init__` registers a once-listener with the dispatcher;
the dispatcher removes a once-listener when it fires, then the handler
stores the message and sets the event.  `wait(timeout)` blocks on the
event; the boolean `event_set` records whether the event was set when the
timed wait returned. -/

/-- Observable state of a `MessageWaiter` together with the registration
status of its listener in the dispatcher. -/
structure WaiterSim : Type where
  msg_type : String
  received : Option Message
  event_set : Bool
  listener_registered : Bool

/-- State right after `__init__`: no message yet, event clear, once
listener registered via `message_bus.once`. -/
def initWaiter (t : String) : WaiterSim :=
  { msg_type := t, received := none, event_set := false,
    listener_registered := true }

/-- Delivery of a matching message: the dispatcher consumes the once
listener and invokes `_handler`, which stores the message and sets the
event. -/
def waiterHandlerFire (w : WaiterSim) (m : Message) : WaiterSim :=
  { w with
      received := some m
      event_set := true
      listener_registered := false }

/-- The dispatcher's `remove`: removing an already-removed (fired) once
listener raises `ValueError` (pyee 5.0.1 behavior noted in the source). -/
def dispatcherRemove (w : WaiterSim) : Except PyErr WaiterSim :=
  if w.listener_registered then
    .ok { w with listener_registered := false }
  else .error .valueError

/-- Body of `MessageWaiter.wait` after `response_event.wait(timeout)`
returned: if the event is set, return the received message; otherwise
remove the listener, swallowing `ValueError`/`KeyError` from an
already-removed listener, and return `received_msg` (still `None`).
The function is total: no exception escapes. -/
def waiterWait (w : WaiterSim) : Option Message × WaiterSim :=
  if w.event_set then (w.received, w)
  else
    match dispatcherRemove w with
    | .ok w2 => (w2.received, w2)
    | .error _ => (w.received, w)

/-- C8: a message delivered before the timeout is returned exactly; with
no delivery `wait` returns absence (`none`, not an error) and the listener
is deregistered afterward; the already-removed-listener error is swallowed
(the error branch still returns normally); and the returned value is
always exactly the stored `received_msg`, so a message and a timeout are
never reported simultaneously. -/
theorem waiter_wait_behavior (t : String) (m : Message) (w : WaiterSim) :
    (waiterWait (waiterHandlerFire (initWaiter t) m)).1 = some m ∧
    (waiterWait (initWaiter t)).1 = none ∧
    ((waiterWait (initWaiter t)).2).listener_registered = false ∧
    dispatcherRemove (waiterHandlerFire (initWaiter t) m) =
      .error .valueError ∧
    waiterWait { w with event_set := false, listener_registered := false } =
      (w.received, { w with event_set := false, listener_registered := false }) ∧
    (waiterWait w).1 = w.received := by
  refine ⟨rfl, rfl, rfl, rfl, rfl, ?_⟩
  unfold waiterWait dispatcherRemove
  by_cases he : w.event_set
  · simp [he]
  · by_cases hl : w.listener_registered
    · simp [he, hl]
    · simp [he, hl]

/-! ## Missing attributes (`self.bus` and `msg.data`)

Python resolves attribute names at run time: reading an attribute that was
never assigned raises `AttributeError`.  The next two models record the
attribute names actually assigned by the constructors in the source and
replay the attribute reads the claimed code paths perform. -/

/-- Attribute names assigned by `MessageCollector.__init__` — the only
assignments before `collect()`/`start()` runs. -/
def collectorInitAttrNames : List String :=
  ["lock", "message_bus", "min_timeout", "max_timeout", "direct_return_func",
   "collect_id", "handlers", "responses", "all_collected", "message",
   "_start_time", "on_response_callback", "queue"]

/-- Instance attribute reads performed by `collect()` strictly before the
request is emitted: `start()` calls `_setup_collection_handlers`, which
reads `self.message` and then `self.bus` (for `self.bus.on`); only after
both listener registrations does `start()` reach `self.bus.emit`. -/
def collectReadsBeforeEmit : List String := ["message", "bus"]

/-- Sequential attribute resolution: the first unassigned name raises
`AttributeError`. -/
def runAttrReads (attrs : List String) : List String → Except PyErr Unit
  | [] => .ok ()
  | n :: rest =>
      if n ∈ attrs then runAttrReads attrs rest
      else .error (.attributeError n)

/-- Outcome of a `collect()` invocation in the attribute model. -/
inductive CollectOutcome : Type where
  | raised : PyErr → CollectOutcome
  | returned : List RespMsg → CollectOutcome
deriving DecidableEq

/-- Attribute-level model of `collect()`: it returns a result only if all
the attribute reads leading to the emit resolve; the first failing read
raises out of `collect()`. -/
def collectAttrModel (attrs : List String) (result : List RespMsg) :
    CollectOutcome :=
  match runAttrReads attrs collectReadsBeforeEmit with
  | .error e => .raised e
  | .ok _ => .returned result

/-- C9: the constructor assigns `message_bus`, never `bus`, while listener
setup reads `self.bus`; hence every `collect()` (and `start()`) raises
`AttributeError` for `bus` before the request is emitted, and no
invocation returns a result. -/
theorem collect_raises_attribute_error_bus (result : List RespMsg) :
    collectAttrModel collectorInitAttrNames result =
      .raised (.attributeError "bus") ∧
    "bus" ∉ collectorInitAttrNames ∧
    "message_bus" ∈ collectorInitAttrNames ∧
    ∀ r : List RespMsg,
      collectAttrModel collectorInitAttrNames result ≠ .returned r := by
  have h : collectAttrModel collectorInitAttrNames result =
      .raised (.attributeError "bus") := by
    simp [collectAttrModel, runAttrReads, collectReadsBeforeEmit,
      collectorInitAttrNames]
  refine ⟨h, by decide, by decide, ?_⟩
  intro r hr
  rw [h] at hr
  exact CollectOutcome.noConfusion hr

/-- Attribute names defined on a deserialized `Message`
(`Message.__init__` assigns exactly these three). -/
def messageAttrNames : List String := ["message_type", "payload", "context"]

/-- Delivery of a bus `Message` to `_register_handler`: its first
statement reads `msg.data`, before the lock and before any state change;
on success the registration logic runs. -/
def deliverHandlingToCallback (msgAttrs : List String) (st : CollectorState)
    (d : HandlingMsg) : Except PyErr CollectorState :=
  if "data" ∈ msgAttrs then .ok (registerHandler st d)
  else .error (.attributeError "data")

/-- Delivery of a bus `Message` to `_receive_response`: `msg.data` is read
in the guard, before any mutation of `responses`/`handlers`. -/
def deliverResponseToCallback (msgAttrs : List String)
    (direct : RespMsg → Bool) (st : CollectorState) (d : RespMsg) :
    Except PyErr CollectorState :=
  if "data" ∈ msgAttrs then .ok (receiveResponse direct st d)
  else .error (.attributeError "data")

/-- Dispatcher-side delivery of one bus message: the executor logs a
callback's exception, leaving the collector state as it was before the
raise (both callbacks read `msg.data` before mutating anything). -/
def deliverBusMessage (msgAttrs : List String) (direct : RespMsg → Bool)
    (st : CollectorState) : BusEvent → CollectorState
  | .handling d =>
      match deliverHandlingToCallback msgAttrs st d with
      | .ok s => s
      | .error _ => st
  | .response d =>
      match deliverResponseToCallback msgAttrs direct st d with
      | .ok s => s
      | .error _ => st

/-- C10: a deserialized bus `Message` defines only `message_type`,
`payload` and `context`; both collector callbacks raise `AttributeError`
on their `msg.data` read, so every delivered acknowledgment or response
errors out and any sequence of bus deliveries leaves `handlers` and
`responses` (indeed the whole state) unchanged. -/
theorem bus_messages_never_update_collector (direct : RespMsg → Bool)
    (st : CollectorState) (d : HandlingMsg) (r : RespMsg)
    (evs : List BusEvent) :
    deliverHandlingToCallback messageAttrNames st d =
      .error (.attributeError "data") ∧
    deliverResponseToCallback messageAttrNames direct st r =
      .error (.attributeError "data") ∧
    "data" ∉ messageAttrNames ∧
    evs.foldl (deliverBusMessage messageAttrNames direct) st = st := by
  have hdata : ("data" ∈ messageAttrNames) = False := by
    simp [messageAttrNames]
  refine ⟨?_, ?_, by decide, ?_⟩
  · simp [deliverHandlingToCallback, hdata]
  · simp [deliverResponseToCallback, hdata]
  · induction evs with
    | nil => rfl
    | cons e rest ih =>
        have hstep : deliverBusMessage messageAttrNames direct st e = st := by
          cases e with
          | handling d2 =>
              simp [deliverBusMessage, deliverHandlingToCallback, hdata]
          | response d2 =>
              simp [deliverBusMessage, deliverResponseToCallback, hdata]
        rw [List.foldl_cons, hstep]
        exact ih

end AlenaBus
